import Mathlib

/-!
Verification of the gofman credential & session authentication subsystem.

Shallow embedding conventions:
* Go byte strings are `List Nat` with every element `< 256`; Go `string`
  values that are only compared for equality are Lean `String`s.
* Go `*T` pointer parameters that are compared by address are modelled by
  a record carrying an explicit address (`GoStrPtr`); `nil` is `Option.none`.
* A Go function that can panic returns `GoResult α`; `GoResult.panicked`
  marks a runtime panic (nil dereference, `make` with negative length).
* Go `error` results are `Option GoErr` / `Except GoErr`; `GoErr.app`
  is a `gofman.Error` with its code and message, `GoErr.lib` is any other
  (library) error such as an `fmt.Sscanf` or base64 decode failure.
* The external `argon2.IDKey` digest and the OS CSPRNG are parameters of
  the functions that call them (`IdKeyFn`, a `Nat → List Nat` source).
-/

/-- Application error codes from pkg/gofman (error.go). -/
def EINTERNAL : String := "internal"

/-- EINVALID error code from pkg/gofman (error.go). -/
def EINVALID : String := "invalid"

/-- EUNAUTHORIZED error code from pkg/gofman (error.go). -/
def EUNAUTHORIZED : String := "unauthorized"

/-- A Go error value: either an application `gofman.Error` (code, message)
or an error produced by a library call (Sscanf, base64 decode). -/
inductive GoErr where
  | app (code : String) (message : String)
  | lib (message : String)
deriving DecidableEq, Repr

/-- Result of a Go computation that may panic at runtime. -/
inductive GoResult (α : Type) where
  | ok (a : α)
  | panicked
deriving DecidableEq, Repr

/-- Decidable equality for Except results, used to evaluate the embedded
functions on concrete inputs. -/
instance instDecEqExcept {ε α : Type} [DecidableEq ε] [DecidableEq α] :
    DecidableEq (Except ε α) := fun a b =>
  match a, b with
  | .error e, .error f =>
    if h : e = f then .isTrue (h ▸ rfl) else .isFalse (fun c => h (Except.error.inj c))
  | .error _, .ok _ => .isFalse (fun c => nomatch c)
  | .ok _, .error _ => .isFalse (fun c => nomatch c)
  | .ok x, .ok y =>
    if h : x = y then .isTrue (h ▸ rfl) else .isFalse (fun c => h (Except.ok.inj c))

/-- User record from pkg/gofman/user.go. -/
structure User where
  id : String
  username : String
  password : String
  isAdmin : Bool
  isDemo : Bool
  createdAt : Int
  updatedAt : Int
  removedAt : Int
deriving DecidableEq, Repr

/-- Session record from pkg/gofman/session.go. -/
structure Session where
  id : String
  userID : String
  token : String
  createdAt : Int
deriving DecidableEq, Repr

/-- A Go `*string` that is compared by address in the source: the record
keeps the pointee value together with the pointer's address. -/
structure GoStrPtr where
  addr : Nat
  val : String
deriving DecidableEq, Repr

/-- File record from pkg/gofman/file.go (string fields only compared by value). -/
structure File where
  id : String
  userID : String
  name : String
  type : String
  path : String
  checksum : String
  createdAt : Int
  updatedAt : Int
  removedAt : Int
deriving DecidableEq, Repr

/-- Tag record from pkg/gofman/tag.go. -/
structure Tag where
  id : String
  userID : String
  name : String
  createdAt : Int
  updatedAt : Int
  removedAt : Int
deriving DecidableEq, Repr

/-- Actor record from pkg/gofman/actor.go. -/
structure Actor where
  id : String
  userID : String
  name : String
  createdAt : Int
  updatedAt : Int
  removedAt : Int
deriving DecidableEq, Repr

/-- FileFilter from pkg/gofman/file.go; the `*string` fields are pointers
whose address matters in CanFindFile. -/
structure FileFilter where
  id : Option GoStrPtr
  userID : Option GoStrPtr
  type : Option GoStrPtr
  offset : Int
  limit : Int
deriving DecidableEq, Repr

/-- TagFilter from pkg/gofman/tag.go. -/
structure TagFilter where
  id : Option GoStrPtr
  userID : Option GoStrPtr
  offset : Int
  limit : Int
deriving DecidableEq, Repr

/-- ActorFilter from pkg/gofman/actor.go. -/
structure ActorFilter where
  id : Option GoStrPtr
  userID : Option GoStrPtr
  offset : Int
  limit : Int
deriving DecidableEq, Repr

/-- Request context from pkg/gofman/context.go: the three values that can be
attached via context.WithValue (request id, user pointer, session pointer). -/
structure Ctx where
  requestID : Option String
  user : Option User
  session : Option Session
deriving DecidableEq, Repr

/-- NewContextWithUser from pkg/gofman/context.go. -/
def NewContextWithUser (ctx : Ctx) (user : User) : Ctx :=
  { ctx with user := some user }

/-- NewContextWithSession from pkg/gofman/context.go. -/
def NewContextWithSession (ctx : Ctx) (session : Session) : Ctx :=
  { ctx with session := some session }

/-- UserFromContext from pkg/gofman/context.go: the current logged in user,
nil when absent. -/
def UserFromContext (ctx : Ctx) : Option User :=
  ctx.user

/-- SessionFromContext from pkg/gofman/context.go. -/
def SessionFromContext (ctx : Ctx) : Option Session :=
  ctx.session

/-- UserIDFromContext from pkg/gofman/context.go: the id of the current user,
empty string if no user is logged in. -/
def UserIDFromContext (ctx : Ctx) : String :=
  match UserFromContext ctx with
  | some user => user.id
  | none => ""

/-- The condition `user := UserFromContext(ctx); user != nil && user.IsDemo`
shared by the mutate predicates. -/
def ctxUserIsDemo (ctx : Ctx) : Bool :=
  match UserFromContext ctx with
  | some user => user.isDemo
  | none => false

/-- CanUpdateUser from pkg/gofman/user.go (lines 68-78).  In the Go source
the `if`-chain's init statement `user := UserFromContext(ctx)` shadows the
`user` parameter for the whole chain, so the second branch's `user.ID`
reads the context user (and dereferences nil when no user is logged in),
and the third branch re-reads the context user.  The `user` parameter is
consequently never used. -/
def CanUpdateUser (ctx : Ctx) (_user : User) : GoResult Bool :=
  match UserFromContext ctx with
  | none =>
    -- first condition false (ctx user is nil); `user.ID` dereferences nil
    GoResult.panicked
  | some u =>
    if u.isDemo then
      GoResult.ok false
    else if u.id = UserIDFromContext ctx then
      GoResult.ok true
    else
      match UserFromContext ctx with
      | some u2 => GoResult.ok u2.isAdmin
      | none => GoResult.ok false

/-- CanCreateUser from pkg/gofman/user.go. -/
def CanCreateUser (ctx : Ctx) : Bool :=
  match UserFromContext ctx with
  | some user => user.isAdmin
  | none => false

/-- CanFindFile from pkg/gofman/file.go (lines 121-124).  The source compares
`filter.UserID == &id` where `id` is a fresh local variable: this is a Go
pointer-identity comparison against the address of the callee's local.
`freshAddr` is the address the Go runtime gives that local; it is distinct
from the address of every object that existed before the call. -/
def CanFindFile (freshAddr : Nat) (ctx : Ctx) (filter : FileFilter) : Bool :=
  let id := UserIDFromContext ctx
  id ≠ "" && (match filter.userID with
              | some p => p.addr = freshAddr
              | none => false)

/-- CanFindTag from pkg/gofman/tag.go (lines 41-44); same pointer-identity
comparison as CanFindFile. -/
def CanFindTag (freshAddr : Nat) (ctx : Ctx) (filter : TagFilter) : Bool :=
  let id := UserIDFromContext ctx
  id ≠ "" && (match filter.userID with
              | some p => p.addr = freshAddr
              | none => false)

/-- CanFindActor from pkg/gofman/actor.go (lines 41-44); same pointer-identity
comparison as CanFindFile. -/
def CanFindActor (freshAddr : Nat) (ctx : Ctx) (filter : ActorFilter) : Bool :=
  let id := UserIDFromContext ctx
  id ≠ "" && (match filter.userID with
              | some p => p.addr = freshAddr
              | none => false)

/-- CanUpdateFile from pkg/gofman/file.go (lines 127-134). -/
def CanUpdateFile (ctx : Ctx) (file : File) : Bool :=
  if ctxUserIsDemo ctx then
    false
  else
    let id := UserIDFromContext ctx
    id ≠ "" && file.userID = id

/-- CanUpdateTag from pkg/gofman/tag.go (lines 47-54). -/
def CanUpdateTag (ctx : Ctx) (tag : Tag) : Bool :=
  if ctxUserIsDemo ctx then
    false
  else
    let id := UserIDFromContext ctx
    id ≠ "" && tag.userID = id

/-- CanUpdateActor from pkg/gofman/actor.go (lines 47-54). -/
def CanUpdateActor (ctx : Ctx) (actor : Actor) : Bool :=
  if ctxUserIsDemo ctx then
    false
  else
    let id := UserIDFromContext ctx
    id ≠ "" && actor.userID = id

/-- CanDeleteSession from pkg/gofman/session.go. -/
def CanDeleteSession (ctx : Ctx) (session : Session) : Bool :=
  let id := UserIDFromContext ctx
  id ≠ "" && session.userID = id

/-- An inbound HTTP request as the authenticate middleware sees it:
the two cookies (nil when absent, `r.Cookie` returns ErrNoCookie) and the
request context. -/
structure Request where
  sessionCookie : Option String
  tokenCookie : Option String
  ctx : Ctx
deriving DecidableEq, Repr

/-- authenticate middleware from pkg/http/auth.go (lines 10-46), modelled as
the context the wrapped `next` handler observes.  The collaborator lookups
`FindSessionForToken` and `FindUserByID` return a Go `(value, error)` pair.
The middleware always invokes `next` exactly once (every branch ends in
`next.ServeHTTP`), so its behaviour is fully captured by that context. -/
def authenticate (findSessionForToken : String → String → Option Session × Option GoErr)
    (findUserByID : String → Option User × Option GoErr) (r : Request) : Ctx :=
  match r.sessionCookie with
  | none => r.ctx
  | some sessionid =>
    match r.tokenCookie with
    | none => r.ctx
    | some token =>
      match findSessionForToken sessionid token with
      | (_, some _) => r.ctx
      | (none, none) => r.ctx
      | (some session, none) =>
        match findUserByID session.userID with
        | (_, some _) => r.ctx
        | (none, none) => r.ctx
        | (some user, none) =>
          NewContextWithUser (NewContextWithSession r.ctx session) user

/-- Bytes of an ASCII Go string literal. -/
def strBytes (s : String) : List Nat :=
  s.data.map Char.toNat

/-- Character of the URL-safe base64 alphabet (base64.RawURLEncoding) at a
given sextet value. -/
def b64char (i : Nat) : Nat :=
  if i < 26 then 65 + i
  else if i < 52 then 97 + (i - 26)
  else if i < 62 then 48 + (i - 52)
  else if i = 62 then 45
  else 95

/-- Inverse of the URL-safe base64 alphabet; `none` on a character outside
the alphabet (base64.CorruptInputError). -/
def b64index (c : Nat) : Option Nat :=
  if 65 ≤ c ∧ c ≤ 90 then some (c - 65)
  else if 97 ≤ c ∧ c ≤ 122 then some (c - 97 + 26)
  else if 48 ≤ c ∧ c ≤ 57 then some (c - 48 + 52)
  else if c = 45 then some 62
  else if c = 95 then some 63
  else none

/-- EncodeToBase64String from pkg/auth/auth.go: base64.RawURLEncoding
(URL-safe alphabet, no padding).  Input bytes are consumed three at a
time; a final group of two bytes yields three characters and a final
single byte yields two. -/
def EncodeToBase64String : List Nat → List Nat
  | b0 :: b1 :: b2 :: rest =>
    let n := (b0 * 256 + b1) * 256 + b2
    b64char (n / 262144 % 64) :: b64char (n / 4096 % 64) ::
      b64char (n / 64 % 64) :: b64char (n % 64) :: EncodeToBase64String rest
  | [b0, b1] =>
    let n := b0 * 256 + b1
    [b64char (n / 1024 % 64), b64char (n / 16 % 64), b64char (n % 16 * 4)]
  | [b0] => [b64char (b0 / 4 % 64), b64char (b0 % 4 * 16)]
  | [] => []

/-- DecodeBase64String from pkg/auth/auth.go: base64.RawURLEncoding decode.
Characters are consumed four at a time; a final group of three characters
yields two bytes, of two characters one byte, and a dangling single
character is a CorruptInputError (`none`), as is any character outside
the alphabet. -/
def DecodeBase64String : List Nat → Option (List Nat)
  | c0 :: c1 :: c2 :: c3 :: rest =>
    match b64index c0, b64index c1, b64index c2, b64index c3 with
    | some s0, some s1, some s2, some s3 =>
      match DecodeBase64String rest with
      | some bs =>
        let m := ((s0 * 64 + s1) * 64 + s2) * 64 + s3
        some (m / 65536 :: m / 256 % 256 :: m % 256 :: bs)
      | none => none
    | _, _, _, _ => none
  | [c0, c1, c2] =>
    match b64index c0, b64index c1, b64index c2 with
    | some s0, some s1, some s2 =>
      let m := (s0 * 64 + s1) * 64 + s2
      some [m / 1024, m / 4 % 256]
    | _, _, _ => none
  | [c0, c1] =>
    match b64index c0, b64index c1 with
    | some s0, some s1 => some [(s0 * 64 + s1) / 16]
    | _, _ => none
  | [_] => none
  | [] => some []

/-- Little-endian ASCII decimal digits of n, with fuel for structural
termination (fuel ≥ n suffices). -/
def natDecCore (fuel n : Nat) : List Nat :=
  match fuel with
  | 0 => []
  | f + 1 => if n = 0 then [] else (n % 10 + 48) :: natDecCore f (n / 10)

/-- Decimal digits (ASCII) of a natural number, as printed by `fmt` verb
`%d` for a non-negative value. -/
def natDec (n : Nat) : List Nat :=
  if n = 0 then [48]
  else (natDecCore n n).reverse

theorem natDecCore_eq :
    ∀ fuel n : Nat, n ≤ fuel →
      natDecCore fuel n = (Nat.digits 10 n).map (fun d => d + 48) := by
  intro fuel
  induction fuel with
  | zero =>
    intro n h
    have : n = 0 := by omega
    simp [natDecCore, this]
  | succ f ih =>
    intro n h
    rw [natDecCore]
    by_cases h0 : n = 0
    · simp [h0]
    · rw [if_neg h0,
        Nat.digits_def' (by norm_num : (1 : Nat) < 10) (Nat.pos_of_ne_zero h0)]
      simp only [List.map_cons]
      congr 1
      have hdiv : n / 10 ≤ f := by omega
      exact ih (n / 10) hdiv

theorem natDec_eq (n : Nat) :
    natDec n = if n = 0 then [48]
               else (Nat.digits 10 n).reverse.map (fun d => d + 48) := by
  rw [natDec]
  by_cases h0 : n = 0
  · simp [h0]
  · rw [if_neg h0, if_neg h0, natDecCore_eq n n le_rfl, List.map_reverse]

/-- Greedy digit scanner underlying the `%d` verb: consumes leading ASCII
digits, returning the accumulated value and the unconsumed remainder. -/
def parseNatAux (l : List Nat) (acc : Nat) : Nat × List Nat :=
  match l with
  | c :: rest =>
    if 48 ≤ c ∧ c ≤ 57 then parseNatAux rest (acc * 10 + (c - 48))
    else (acc, c :: rest)
  | [] => (acc, [])

/-- `%d` digit run: requires at least one leading digit, else a scan error. -/
def parseNat (l : List Nat) : Option (Nat × List Nat) :=
  match l with
  | c :: _ => if 48 ≤ c ∧ c ≤ 57 then some (parseNatAux l 0) else none
  | [] => none

/-- fmt.Sscanf with format `v=%d` into an `int` (pkg/auth/auth.go line 142):
matches the literal prefix, then a possibly signed decimal within the
64-bit int range; trailing unconsumed input is not an error for Sscanf. -/
def scanVersion (s : List Nat) : Option Int :=
  match s with
  | 118 :: 61 :: rest =>
    if rest.head? = some 45 then
      match parseNat rest.tail with
      | some (v, _) => if v ≤ 9223372036854775808 then some (-(v : Int)) else none
      | none => none
    else
      match parseNat rest with
      | some (v, _) => if v < 9223372036854775808 then some (v : Int) else none
      | none => none
  | _ => none

/-- fmt.Sscanf with format `m=%d,t=%d,p=%d` into `(uint32, uint32, uint8)`
(pkg/auth/auth.go lines 150-152): unsigned decimals with the literal
separators; a value outside the destination's range is a scan error. -/
def scanParams (s : List Nat) : Option (Nat × Nat × Nat) :=
  match s with
  | 109 :: 61 :: rest =>
    match parseNat rest with
    | none => none
    | some (memory, rest1) =>
      if memory < 4294967296 then
        match rest1 with
        | 44 :: 116 :: 61 :: rest2 =>
          match parseNat rest2 with
          | none => none
          | some (time, rest3) =>
            if time < 4294967296 then
              match rest3 with
              | 44 :: 112 :: 61 :: rest4 =>
                match parseNat rest4 with
                | none => none
                | some (threads, _) =>
                  if threads < 256 then some (memory, time, threads) else none
              | _ => none
            else none
        | _ => none
      else none
  | _ => none

/-- strings.Split(key, "$"): split on every occurrence of the dollar byte
(36); always returns at least one (possibly empty) segment. -/
def splitDollar (l : List Nat) : List (List Nat) :=
  match l with
  | [] => [[]]
  | c :: rest =>
    if c = 36 then [] :: splitDollar rest
    else
      match splitDollar rest with
      | [] => [[c]]
      | s :: ss => (c :: s) :: ss

/-- subtle.ConstantTimeCompare: 1 iff the two byte slices have equal length
and contents, 0 otherwise (extensionally, equality of the lists). -/
def constantTimeCompare (x y : List Nat) : Nat :=
  if x = y then 1 else 0

/-- Type of the external argon2.IDKey digest function, with the Go argument
order (password, salt, time, memory, threads, keyLen). -/
def IdKeyFn : Type :=
  List Nat → List Nat → Nat → Nat → Nat → Nat → List Nat

/-- Argon constant from pkg/auth/auth.go. -/
def ArgonTime : Nat := 1

/-- ArgonMemory constant (64 * 1024) from pkg/auth/auth.go. -/
def ArgonMemory : Nat := 65536

/-- ArgonThreads constant from pkg/auth/auth.go. -/
def ArgonThreads : Nat := 4

/-- ArgonKeyLen constant from pkg/auth/auth.go. -/
def ArgonKeyLen : Nat := 32

/-- argon2.Version of the vendored x/crypto argon2 package. -/
def argon2Version : Nat := 19

/-- The fmt.Sprintf call of HashPassword (pkg/auth/auth.go lines 116-119):
format string `$argon2id$v=%d$m=%d,t=%d,p=%d$%s$%s`. -/
def sprintfKey (version memory time threads : Nat) (b64Salt b64Hash : List Nat) : List Nat :=
  36 :: strBytes "argon2id" ++
    36 :: (strBytes "v=" ++ natDec version) ++
    36 :: (strBytes "m=" ++ natDec memory ++ strBytes ",t=" ++ natDec time ++
           strBytes ",p=" ++ natDec threads) ++
    36 :: b64Salt ++ 36 :: b64Hash

/-- HashPassword from pkg/auth/auth.go (lines 99-122), parameterized by the
external argon2.IDKey digest. -/
def HashPassword (idKey : IdKeyFn) (password salt : List Nat) : Except GoErr (List Nat) :=
  if password = [] then .error (.app EINVALID "Password required.")
  else if salt = [] then .error (.app EINVALID "Salt required.")
  else
    let hash := idKey password salt ArgonTime ArgonMemory ArgonThreads ArgonKeyLen
    .ok (sprintfKey argon2Version ArgonMemory ArgonTime ArgonThreads
          (EncodeToBase64String salt) (EncodeToBase64String hash))

/-- VerifyPassword from pkg/auth/auth.go (lines 126-178), parameterized by
the external argon2.IDKey digest.  Sscanf and base64 failures propagate as
library errors (`GoErr.lib`), exactly as the source returns the raw `err`. -/
def VerifyPassword (idKey : IdKeyFn) (password key : List Nat) : Except GoErr Unit :=
  if password = [] then .error (.app EINVALID "Password required.")
  else if key = [] then .error (.app EINVALID "Argon2 key required.")
  else
    let decodedKey := splitDollar key
    if decodedKey.length ≠ 6 then .error (.app EINVALID "Decoded key wrong length.")
    else
      match scanVersion (decodedKey.getD 2 []) with
      | none => .error (.lib "input does not match format")
      | some version =>
        if version ≠ (argon2Version : Int) then
          .error (.app EINVALID "Argon version mismatch.")
        else
          match scanParams (decodedKey.getD 3 []) with
          | none => .error (.lib "input does not match format")
          | some (memory, time, threads) =>
            match DecodeBase64String (decodedKey.getD 4 []) with
            | none => .error (.lib "illegal base64 data")
            | some salt =>
              match DecodeBase64String (decodedKey.getD 5 []) with
              | none => .error (.lib "illegal base64 data")
              | some hash =>
                let keyLen := hash.length
                let control := idKey password salt time memory threads keyLen
                if constantTimeCompare hash control = 1 then .ok ()
                else .error (.app EINVALID "Hash not equal password.")

/-- GenerateRandomBytes from pkg/auth/auth.go (lines 44-55), parameterized
by the OS CSPRNG (`randRead n` is what rand.Read fills an `n`-byte slice
with).  The guard only rejects `n < -1`; for `n = -1` control reaches
`make([]byte, n)`, which panics on a negative length. -/
def GenerateRandomBytes (randRead : Nat → List Nat) (n : Int) : GoResult (Except GoErr (List Nat)) :=
  if n < -1 then .ok (.error (.app EINTERNAL "Length must be a positive int."))
  else if n < 0 then .panicked
  else .ok (.ok (randRead n.toNat))

/-- Spec-side predicate for user update/remove (compare with CanUpdateUser):
permit exactly when the acting identity is the target itself and not demo,
or the acting identity is an admin acting on another user. -/
def specCanUpdateUser (ctx : Ctx) (target : User) : Bool :=
  match UserFromContext ctx with
  | none => false
  | some actor =>
    (actor.id = target.id && !actor.isDemo) || (actor.isAdmin && actor.id ≠ target.id)

/-- Spec-side predicate for the file find filter (compare with CanFindFile):
permit exactly when an acting identity is present and the filter's owner
constraint is set and equal to that identity's id. -/
def specCanFindFile (ctx : Ctx) (filter : FileFilter) : Bool :=
  match UserFromContext ctx, filter.userID with
  | some actor, some pointer => pointer.val = actor.id
  | _, _ => false

/-- Spec-side predicate for the tag find filter (compare with CanFindTag). -/
def specCanFindTag (ctx : Ctx) (filter : TagFilter) : Bool :=
  match UserFromContext ctx, filter.userID with
  | some actor, some pointer => pointer.val = actor.id
  | _, _ => false

/-- Spec-side predicate for the actor find filter (compare with CanFindActor). -/
def specCanFindActor (ctx : Ctx) (filter : ActorFilter) : Bool :=
  match UserFromContext ctx, filter.userID with
  | some actor, some pointer => pointer.val = actor.id
  | _, _ => false

/-- Fixture: ordinary (non-admin, non-demo) user A. -/
def userA : User := ⟨"A", "alice", "pwhash", false, false, 0, 0, 0⟩

/-- Fixture: ordinary user B, a different user than A. -/
def userB : User := ⟨"B", "bob", "pwhash", false, false, 0, 0, 0⟩

/-- Fixture: demo user D. -/
def demoUser : User := ⟨"D", "demo", "pwhash", false, true, 0, 0, 0⟩

/-- Fixture: request context with user A logged in. -/
def ctxA : Ctx := ⟨none, some userA, none⟩

/-- Fixture: request context with the demo user logged in. -/
def ctxDemo : Ctx := ⟨none, some demoUser, none⟩

/-- Fixture: anonymous request context. -/
def ctxAnon : Ctx := ⟨none, none, none⟩

/-- Fixture: a file filter whose owner constraint points (from address 0) at
the value "A", the id of user A. -/
def filterFileA : FileFilter := ⟨none, some ⟨0, "A"⟩, none, 0, 0⟩

/-- Fixture: tag filter owned by A, pointer stored at address 0. -/
def filterTagA : TagFilter := ⟨none, some ⟨0, "A"⟩, 0, 0⟩

/-- Fixture: actor filter owned by A, pointer stored at address 0. -/
def filterActorA : ActorFilter := ⟨none, some ⟨0, "A"⟩, 0, 0⟩

/-- Fixture: a file owned by the demo user. -/
def fileD : File := ⟨"f1", "D", "name", "type", "path", "sum", 0, 0, 0⟩

/-- Fixture: a tag owned by the demo user. -/
def tagD : Tag := ⟨"t1", "D", "name", 0, 0, 0⟩

/-- Fixture: an actor record owned by the demo user. -/
def actorD : Actor := ⟨"a1", "D", "name", 0, 0, 0⟩

/-- A digest function that satisfies the argon2.IDKey length and byte-range
contracts: it returns keyLen copies of the byte 7. -/
def replicateIdKey : IdKeyFn := fun _ _ _ _ _ kl => List.replicate kl 7

/-- A digest function whose output depends on the password length; used to
exhibit a mismatching verification. -/
def lengthIdKey : IdKeyFn := fun pw _ _ _ _ kl => List.replicate kl (pw.length % 256)

/-- A digest function returning keyLen zero bytes. -/
def zeroIdKey : IdKeyFn := fun _ _ _ _ _ kl => List.replicate kl 0

/-- The argon2id digest of ("password", "salt") at (time=1, memory=65536,
parallelism=4, keyLen=32), i.e. the base64 decoding of the hash segment of
the key string fixed by the repository test suite. -/
def pinnedDigest : List Nat :=
  [57, 108, 38, 156, 161, 94, 152, 161, 54, 32, 184, 204, 235, 72, 245, 178,
   141, 104, 69, 112, 197, 37, 138, 175, 58, 38, 37, 101, 48, 114, 190, 229]

/-- A digest function pinned to the repository test vector. -/
def pinnedIdKey : IdKeyFn := fun _ _ _ _ _ _ => pinnedDigest

/-- A well-formed credential key whose embedded hash is [1, 2, 3], which no
output of zeroIdKey can match. -/
def mismatchKey : List Nat :=
  sprintfKey argon2Version ArgonMemory ArgonTime ArgonThreads
    (EncodeToBase64String (strBytes "salt")) (EncodeToBase64String [1, 2, 3])

/-- A CSPRNG model returning n zero bytes. -/
def zeroRand : Nat → List Nat := fun n => List.replicate n 0

/-! Lemmas about the base64 codec. -/

theorem b64index_b64char : ∀ i, i < 64 → b64index (b64char i) = some i := by decide

theorem b64char_ne_dollar : ∀ i, i < 64 → b64char i ≠ 36 := by decide

theorem encode_decode :
    ∀ bs : List Nat, (∀ b ∈ bs, b < 256) →
      DecodeBase64String (EncodeToBase64String bs) = some bs := by
  intro bs
  induction bs using EncodeToBase64String.induct with
  | case1 b0 b1 b2 rest ih =>
    intro h
    have hb0 : b0 < 256 := h b0 (by simp)
    have hb1 : b1 < 256 := h b1 (by simp)
    have hb2 : b2 < 256 := h b2 (by simp)
    have hrest : ∀ b ∈ rest, b < 256 := fun b hb => h b (by simp [hb])
    rw [EncodeToBase64String, DecodeBase64String,
        b64index_b64char _ (by omega), b64index_b64char _ (by omega),
        b64index_b64char _ (by omega), b64index_b64char _ (by omega),
        ih hrest]
    simp only [Option.some.injEq, List.cons.injEq]
    refine ⟨by omega, by omega, by omega, trivial⟩
  | case2 b0 b1 =>
    intro h
    have hb0 : b0 < 256 := h b0 (by simp)
    have hb1 : b1 < 256 := h b1 (by simp)
    rw [EncodeToBase64String, DecodeBase64String,
        b64index_b64char _ (by omega), b64index_b64char _ (by omega),
        b64index_b64char _ (by omega)]
    simp only [Option.some.injEq, List.cons.injEq]
    refine ⟨by omega, by omega, trivial⟩
  | case3 b0 =>
    intro h
    have hb0 : b0 < 256 := h b0 (by simp)
    rw [EncodeToBase64String, DecodeBase64String,
        b64index_b64char _ (by omega), b64index_b64char _ (by omega)]
    simp only [Option.some.injEq, List.cons.injEq]
    refine ⟨by omega, trivial⟩
  | case4 =>
    intro _
    rfl

theorem encode_no_dollar : ∀ bs : List Nat, 36 ∉ EncodeToBase64String bs := by
  intro bs
  induction bs using EncodeToBase64String.induct with
  | case1 b0 b1 b2 rest ih =>
    rw [EncodeToBase64String]
    intro hmem
    simp only [List.mem_cons] at hmem
    rcases hmem with h | h | h | h | h
    · exact b64char_ne_dollar _ (by omega) h.symm
    · exact b64char_ne_dollar _ (by omega) h.symm
    · exact b64char_ne_dollar _ (by omega) h.symm
    · exact b64char_ne_dollar _ (by omega) h.symm
    · exact ih h
  | case2 b0 b1 =>
    rw [EncodeToBase64String]
    intro hmem
    simp only [List.mem_cons, List.mem_singleton] at hmem
    rcases hmem with h | h | h | h
    · exact b64char_ne_dollar _ (by omega) h.symm
    · exact b64char_ne_dollar _ (by omega) h.symm
    · exact b64char_ne_dollar _ (by omega) h.symm
    · simp at h
  | case3 b0 =>
    rw [EncodeToBase64String]
    intro hmem
    simp only [List.mem_cons, List.mem_singleton] at hmem
    rcases hmem with h | h | h
    · exact b64char_ne_dollar _ (by omega) h.symm
    · exact b64char_ne_dollar _ (by omega) h.symm
    · simp at h
  | case4 =>
    simp [EncodeToBase64String]

/-! Lemmas about splitting on the dollar byte. -/

theorem splitDollar_no_dollar :
    ∀ xs : List Nat, 36 ∉ xs → splitDollar xs = [xs] := by
  intro xs
  induction xs with
  | nil => intro _; rfl
  | cons c rest ih =>
    intro h
    have hc : ¬c = 36 := fun e => h (by simp [e])
    have hrest : 36 ∉ rest := fun hm => h (List.mem_cons_of_mem _ hm)
    rw [splitDollar, if_neg hc, ih hrest]

theorem splitDollar_append :
    ∀ xs rest : List Nat, 36 ∉ xs →
      splitDollar (xs ++ 36 :: rest) = xs :: splitDollar rest := by
  intro xs rest
  induction xs with
  | nil =>
    intro _
    rw [List.nil_append, splitDollar, if_pos rfl]
  | cons c t ih =>
    intro h
    have hc : ¬c = 36 := fun e => h (by simp [e])
    have ht : 36 ∉ t := fun hm => h (List.mem_cons_of_mem _ hm)
    rw [List.cons_append, splitDollar, if_neg hc, ih ht]

/-! Lemmas about decimal formatting and the Sscanf digit scanners. -/

theorem natDec_digit (n : Nat) : ∀ c ∈ natDec n, 48 ≤ c ∧ c ≤ 57 := by
  intro c hc
  rw [natDec_eq] at hc
  split at hc
  · simp only [List.mem_singleton] at hc
    omega
  · simp only [List.mem_map, List.mem_reverse] at hc
    obtain ⟨d, hd, rfl⟩ := hc
    have := Nat.digits_lt_base (by norm_num) hd
    omega

theorem natDec_no_dollar (n : Nat) : 36 ∉ natDec n := by
  intro h
  have := natDec_digit n 36 h
  omega

theorem parseNatAux_append :
    ∀ ds : List Nat, (∀ d ∈ ds, d < 10) →
      ∀ rest : List Nat, (∀ c, rest.head? = some c → c < 48 ∨ 57 < c) →
        ∀ acc : Nat,
          parseNatAux (ds.map (fun d => d + 48) ++ rest) acc =
            (ds.foldl (fun a d => a * 10 + d) acc, rest) := by
  intro ds
  induction ds with
  | nil =>
    intro _ rest hrest acc
    simp only [List.map_nil, List.nil_append, List.foldl_nil]
    cases rest with
    | nil => rfl
    | cons c r =>
      have := hrest c rfl
      rw [parseNatAux, if_neg (by omega)]
  | cons d t ih =>
    intro hds rest hrest acc
    have hd : d < 10 := hds d (by simp)
    simp only [List.map_cons, List.cons_append, List.foldl_cons]
    rw [parseNatAux, if_pos (by omega)]
    have h48 : d + 48 - 48 = d := by omega
    rw [h48]
    exact ih (fun x hx => hds x (List.mem_cons_of_mem _ hx)) rest hrest (acc * 10 + d)

theorem foldl_reverse_digits :
    ∀ (ds : List Nat) (acc : Nat),
      ds.reverse.foldl (fun a d => a * 10 + d) acc =
        acc * 10 ^ ds.length + Nat.ofDigits 10 ds := by
  intro ds
  induction ds with
  | nil => intro acc; simp [Nat.ofDigits]
  | cons d t ih =>
    intro acc
    simp only [List.reverse_cons, List.foldl_append, List.foldl_cons, List.foldl_nil,
      ih, Nat.ofDigits_cons, List.length_cons]
    ring

theorem parseNat_natDec (n : Nat) (rest : List Nat)
    (hrest : ∀ c, rest.head? = some c → c < 48 ∨ 57 < c) :
    parseNat (natDec n ++ rest) = some (n, rest) := by
  have key : ∃ ds : List Nat, (∀ d ∈ ds, d < 10) ∧
      natDec n = ds.map (fun d => d + 48) ∧
      ds.foldl (fun a d => a * 10 + d) 0 = n ∧ ds ≠ [] := by
    by_cases h : n = 0
    · exact ⟨[0], by simp, by simp [natDec_eq, h], by simp [h], by simp⟩
    · refine ⟨(Nat.digits 10 n).reverse, ?_, by simp [natDec_eq, h], ?_, ?_⟩
      · intro d hd
        exact Nat.digits_lt_base (by norm_num) (List.mem_reverse.mp hd)
      · rw [foldl_reverse_digits]
        simp [Nat.ofDigits_digits]
      · simp [Nat.digits_ne_nil_iff_ne_zero.mpr h]
  obtain ⟨ds, hds, heq, hval, hne⟩ := key
  rw [heq]
  cases ds with
  | nil => exact absurd rfl hne
  | cons d t =>
    have hd : d < 10 := hds d (by simp)
    have haux := parseNatAux_append (d :: t) hds rest hrest 0
    simp only [List.map_cons, List.cons_append] at haux ⊢
    rw [parseNat, if_pos (by omega), haux, hval]

/-- Byte expansion of the literal `v=`. -/
theorem strBytes_vEq : strBytes "v=" = [118, 61] := rfl

/-- Byte expansion of the literal `m=`. -/
theorem strBytes_mEq : strBytes "m=" = [109, 61] := rfl

/-- Byte expansion of the literal `,t=`. -/
theorem strBytes_tEq : strBytes ",t=" = [44, 116, 61] := rfl

/-- Byte expansion of the literal `,p=`. -/
theorem strBytes_pEq : strBytes ",p=" = [44, 112, 61] := rfl

theorem natDec_ne_nil (n : Nat) : natDec n ≠ [] := by
  rw [natDec_eq]
  split
  · simp
  · simp [*, Nat.digits_ne_nil_iff_ne_zero]

theorem natDec_head_not45 :
    ∀ (n : Nat) (tail : List Nat) (c : Nat),
      (natDec n ++ tail).head? = some c → ¬c = 45 := by
  intro n tail c hc
  cases hnd : natDec n with
  | nil => exact absurd hnd (natDec_ne_nil n)
  | cons d t =>
    rw [hnd, List.cons_append, List.head?_cons] at hc
    have hd : 48 ≤ d ∧ d ≤ 57 := natDec_digit n d (by rw [hnd]; simp)
    cases hc
    omega

theorem parseNat_natDec_nil (n : Nat) : parseNat (natDec n) = some (n, []) := by
  have := parseNat_natDec n [] (by intro c h; simp at h)
  simpa using this

theorem scanVersion_natDec (v : Nat) (hv : v < 9223372036854775808) :
    scanVersion (strBytes "v=" ++ natDec v) = some (v : Int) := by
  rw [strBytes_vEq]
  simp only [List.cons_append, List.nil_append]
  rw [scanVersion]
  rw [if_neg (fun h => natDec_head_not45 v [] _ (by simpa using h) rfl)]
  rw [parseNat_natDec_nil v]
  simp [hv]

theorem scanParams_natDec (m t p : Nat)
    (hm : m < 4294967296) (ht : t < 4294967296) (hp : p < 256) :
    scanParams (strBytes "m=" ++ natDec m ++ strBytes ",t=" ++ natDec t ++
      strBytes ",p=" ++ natDec p) = some (m, t, p) := by
  rw [strBytes_mEq, strBytes_tEq, strBytes_pEq]
  simp only [List.append_assoc, List.cons_append, List.nil_append]
  simp [scanParams, parseNat_natDec, parseNat_natDec_nil, hm, ht, hp]


theorem splitDollar_cons36 (X : List Nat) : splitDollar (36 :: X) = [] :: splitDollar X := by
  rw [splitDollar, if_pos rfl]

theorem splitDollar_sprintfKey (v m t p : Nat) (bS bH : List Nat)
    (hS : 36 ∉ bS) (hH : 36 ∉ bH) :
    splitDollar (sprintfKey v m t p bS bH) =
      [[], strBytes "argon2id", strBytes "v=" ++ natDec v,
       strBytes "m=" ++ natDec m ++ strBytes ",t=" ++ natDec t ++
         strBytes ",p=" ++ natDec p,
       bS, bH] := by
  have hA : (36 : Nat) ∉ strBytes "argon2id" := by decide
  have hB : (36 : Nat) ∉ strBytes "v=" ++ natDec v := by
    intro h
    rcases List.mem_append.mp h with h | h
    · revert h; decide
    · exact natDec_no_dollar v h
  have hC : (36 : Nat) ∉ strBytes "m=" ++ natDec m ++ strBytes ",t=" ++ natDec t ++
      strBytes ",p=" ++ natDec p := by
    intro h
    simp only [List.mem_append] at h
    rcases h with ((((h | h) | h) | h) | h) | h
    · revert h; decide
    · exact natDec_no_dollar m h
    · revert h; decide
    · exact natDec_no_dollar t h
    · revert h; decide
    · exact natDec_no_dollar p h
  rw [sprintfKey]
  set nB : List Nat := strBytes "v=" ++ natDec v with hnB
  set nC : List Nat := strBytes "m=" ++ natDec m ++ strBytes ",t=" ++ natDec t ++
    strBytes ",p=" ++ natDec p with hnC
  simp only [List.cons_append, List.append_assoc]
  rw [splitDollar_cons36, splitDollar_append _ _ hA,
      splitDollar_append _ _ hB, splitDollar_append _ _ hC,
      splitDollar_append _ _ hS, splitDollar_no_dollar _ hH]

theorem VerifyPassword_sprintfKey (idKey : IdKeyFn) (password salt hash : List Nat)
    (hpw : password ≠ [])
    (hsalt : ∀ b ∈ salt, b < 256) (hhash : ∀ b ∈ hash, b < 256)
    (t m p : Nat) (hm : m < 4294967296) (ht : t < 4294967296) (hp : p < 256) :
    VerifyPassword idKey password
      (sprintfKey argon2Version m t p (EncodeToBase64String salt)
        (EncodeToBase64String hash)) =
      (if idKey password salt t m p hash.length = hash then Except.ok ()
       else Except.error (GoErr.app EINVALID "Hash not equal password.")) := by
  have hkey : sprintfKey argon2Version m t p (EncodeToBase64String salt)
      (EncodeToBase64String hash) ≠ [] := by
    rw [sprintfKey]
    simp
  have hsplit := splitDollar_sprintfKey argon2Version m t p
    (EncodeToBase64String salt) (EncodeToBase64String hash)
    (encode_no_dollar salt) (encode_no_dollar hash)
  rw [VerifyPassword, if_neg hpw, if_neg hkey]
  simp only [hsplit, List.length_cons, List.length_nil, List.getD_cons_succ,
    List.getD_cons_zero]
  rw [scanVersion_natDec argon2Version (by decide), if_neg (by norm_num)]
  dsimp only
  rw [if_neg (by simp), scanParams_natDec m t p hm ht hp]
  dsimp only
  rw [encode_decode salt hsalt]
  dsimp only
  rw [encode_decode hash hhash]
  dsimp only
  by_cases hc : idKey password salt t m p hash.length = hash
  · have h1 : constantTimeCompare hash (idKey password salt t m p hash.length) = 1 := by
      rw [constantTimeCompare, if_pos hc.symm]
    rw [h1, if_pos rfl, if_pos hc]
  · have h0 : constantTimeCompare hash (idKey password salt t m p hash.length) = 0 := by
      rw [constantTimeCompare, if_neg (fun e => hc e.symm)]
    rw [h0, if_neg (by norm_num), if_neg hc]

/-- HashPassword on non-empty inputs succeeds with the Sprintf-formatted key. -/
theorem HashPassword_ok (idKey : IdKeyFn) (password salt : List Nat)
    (hpw : password ≠ []) (hsalt : salt ≠ []) :
    HashPassword idKey password salt =
      Except.ok (sprintfKey argon2Version ArgonMemory ArgonTime ArgonThreads
        (EncodeToBase64String salt)
        (EncodeToBase64String
          (idKey password salt ArgonTime ArgonMemory ArgonThreads ArgonKeyLen))) := by
  rw [HashPassword, if_neg hpw, if_neg hsalt]

/-- The find predicates deny whenever the filter's pointer does not alias the
callee's fresh local, which the Go allocation model guarantees for every
caller-supplied pointer. -/
theorem canFindFile_fresh_denies (freshAddr : Nat) (ctx : Ctx) (filter : FileFilter)
    (hfresh : ∀ q, filter.userID = some q → q.addr ≠ freshAddr) :
    CanFindFile freshAddr ctx filter = false := by
  rw [CanFindFile]
  cases hq : filter.userID with
  | none => simp
  | some q => simp [hfresh q hq]

/-- C1: the claim states CanUpdateUser permits exactly self-not-demo or
admin-on-other.  In the source the chain's `user :=` init shadows the target
parameter, so the second branch compares the context user's id with itself:
the non-admin, non-demo identity A is permitted to update the unrelated user
B, while the claimed predicate denies it. -/
theorem canUpdateUser_permits_nonadmin_cross_user :
    CanUpdateUser ctxA userB = GoResult.ok true ∧
    specCanUpdateUser ctxA userB = false := by
  decide

/-- C2: the claim states the find predicates permit a filter whose owner
constraint equals the acting identity's id.  The source compares the filter
pointer with the address of a fresh local (`filter.UserID == &id`), so even
identity A filtering with userID bound to the value "A" (stored at any
pre-existing address, here 0, distinct from the callee's fresh address 1) is
denied by all three predicates, while the claimed predicates permit it. -/
theorem canFind_denies_matching_owner_filter :
    CanFindFile 1 ctxA filterFileA = false ∧ specCanFindFile ctxA filterFileA = true ∧
    CanFindTag 1 ctxA filterTagA = false ∧ specCanFindTag ctxA filterTagA = true ∧
    CanFindActor 1 ctxA filterActorA = false ∧ specCanFindActor ctxA filterActorA = true := by
  decide

/-- C7: the claim states every negative n fails with InvalidArgument.  The
source guard only rejects n < -1 and uses the EINTERNAL code; n = -1 passes
the guard and panics in make([]byte, -1), and n = -10 yields an error whose
code is "internal", not "invalid". -/
theorem generateRandomBytes_negative_behaviour :
    GenerateRandomBytes zeroRand (-1) = GoResult.panicked ∧
    GenerateRandomBytes zeroRand (-10) =
      GoResult.ok (Except.error (GoErr.app EINTERNAL "Length must be a positive int.")) :=
  ⟨rfl, rfl⟩

/-- C10: calling CanUpdateUser with a context carrying no identity reaches
the second branch, whose `user.ID` reads the shadowing nil context user, so
the call panics instead of returning false. -/
theorem canUpdateUser_anonymous_panics :
    ∀ (ctx : Ctx) (target : User),
      UserFromContext ctx = none → CanUpdateUser ctx target = GoResult.panicked := by
  intro ctx target h
  simp [CanUpdateUser, h]

/-- C10 witness: the anonymous context panics on a concrete target. -/
theorem canUpdateUser_anonymous_panics_witness :
    CanUpdateUser ctxAnon userB = GoResult.panicked :=
  canUpdateUser_anonymous_panics ctxAnon userB rfl

theorem mutate_demo_aux (ctx : Ctx) (u : User)
    (hu : UserFromContext ctx = some u) (hdemo : u.isDemo = true) :
    ctxUserIsDemo ctx = true := by
  simp [ctxUserIsDemo, hu, hdemo]

theorem mutate_permit_aux (ctx : Ctx) (owner : String)
    (hperm : (if ctxUserIsDemo ctx then false
              else UserIDFromContext ctx ≠ "" && owner = UserIDFromContext ctx) = true) :
    ∃ v, UserFromContext ctx = some v ∧ v.isDemo = false ∧ owner = v.id ∧ v.id ≠ "" := by
  cases hv : UserFromContext ctx with
  | none =>
    simp [ctxUserIsDemo, UserIDFromContext, hv] at hperm
  | some v =>
    by_cases hdemo : v.isDemo = true
    · simp [ctxUserIsDemo, hv, hdemo] at hperm
    · simp only [ctxUserIsDemo, UserIDFromContext, hv, Bool.not_eq_true] at hperm hdemo
      rw [hdemo] at hperm
      simp only [Bool.false_eq_true, if_false, Bool.and_eq_true, decide_eq_true_eq,
        ne_eq] at hperm
      exact ⟨v, rfl, hdemo, hperm.2, hperm.1⟩

/-- C8: the mutate predicates on file, tag and actor deny every demo
identity, even one owning the resource, and they permit only when an acting
identity is present, is not demo, and its id equals the resource's owner id. -/
theorem mutate_predicates_demo_and_ownership :
    ∀ (ctx : Ctx) (u : User) (f : File) (tg : Tag) (a : Actor),
      (UserFromContext ctx = some u → u.isDemo = true →
        CanUpdateFile ctx f = false ∧ CanUpdateTag ctx tg = false ∧
          CanUpdateActor ctx a = false) ∧
      (CanUpdateFile ctx f = true →
        ∃ v, UserFromContext ctx = some v ∧ v.isDemo = false ∧ f.userID = v.id ∧ v.id ≠ "") ∧
      (CanUpdateTag ctx tg = true →
        ∃ v, UserFromContext ctx = some v ∧ v.isDemo = false ∧ tg.userID = v.id ∧ v.id ≠ "") ∧
      (CanUpdateActor ctx a = true →
        ∃ v, UserFromContext ctx = some v ∧ v.isDemo = false ∧ a.userID = v.id ∧ v.id ≠ "") := by
  intro ctx u f tg a
  refine ⟨?_, ?_, ?_, ?_⟩
  · intro hu hdemo
    have hd := mutate_demo_aux ctx u hu hdemo
    exact ⟨by simp [CanUpdateFile, hd], by simp [CanUpdateTag, hd],
           by simp [CanUpdateActor, hd]⟩
  · intro hperm
    exact mutate_permit_aux ctx f.userID hperm
  · intro hperm
    exact mutate_permit_aux ctx tg.userID hperm
  · intro hperm
    exact mutate_permit_aux ctx a.userID hperm

/-- C8 witness: the demo identity is denied an update of the file, tag and
actor records it owns. -/
theorem mutate_predicates_demo_witness :
    CanUpdateFile ctxDemo fileD = false ∧ CanUpdateTag ctxDemo tagD = false ∧
      CanUpdateActor ctxDemo actorD = false :=
  (mutate_predicates_demo_and_ownership ctxDemo demoUser fileD tagD actorD).1 rfl rfl

/-- C9: the resolve stage never fails a request.  In every branch the
middleware hands the request to next: with no identity and no session
injected when a cookie is absent or either lookup errs or returns nil, and
with both the session and its user injected exactly when all lookups
succeed. -/
theorem authenticate_resolve_spec :
    ∀ (fs : String → String → Option Session × Option GoErr)
      (fu : String → Option User × Option GoErr) (r : Request),
      (r.sessionCookie = none → authenticate fs fu r = r.ctx) ∧
      (r.tokenCookie = none → authenticate fs fu r = r.ctx) ∧
      (∀ sid tok, r.sessionCookie = some sid → r.tokenCookie = some tok →
        (fs sid tok).2.isSome = true ∨ (fs sid tok).1 = none →
        authenticate fs fu r = r.ctx) ∧
      (∀ sid tok s, r.sessionCookie = some sid → r.tokenCookie = some tok →
        fs sid tok = (some s, none) →
        (fu s.userID).2.isSome = true ∨ (fu s.userID).1 = none →
        authenticate fs fu r = r.ctx) ∧
      (∀ sid tok s u, r.sessionCookie = some sid → r.tokenCookie = some tok →
        fs sid tok = (some s, none) → fu s.userID = (some u, none) →
        authenticate fs fu r = { r.ctx with session := some s, user := some u }) := by
  intro fs fu r
  refine ⟨?_, ?_, ?_, ?_, ?_⟩
  · intro h
    rw [authenticate, h]
  · intro h
    rw [authenticate]
    cases r.sessionCookie with
    | none => rfl
    | some sid => rw [h]
  · intro sid tok hs ht hfail
    rcases hfs : fs sid tok with ⟨sess, err⟩
    rw [hfs] at hfail
    rw [authenticate, hs, ht]
    dsimp only
    rw [hfs]
    cases err with
    | some e => cases sess <;> rfl
    | none =>
      cases sess with
      | none => rfl
      | some s =>
        rcases hfail with hfail | hfail
        · simp at hfail
        · simp at hfail
  · intro sid tok s hs ht hfs hfail
    rcases hfu : fu s.userID with ⟨usr, err⟩
    rw [hfu] at hfail
    rw [authenticate, hs, ht]
    dsimp only
    rw [hfs]
    dsimp only
    rw [hfu]
    cases err with
    | some e => cases usr <;> rfl
    | none =>
      cases usr with
      | none => rfl
      | some u =>
        rcases hfail with hfail | hfail
        · simp at hfail
        · simp at hfail
  · intro sid tok s u hs ht hfs hfu
    rw [authenticate, hs, ht]
    dsimp only
    rw [hfs]
    dsimp only
    rw [hfu]
    rfl

/-- C9 witness: a request with no Session cookie proceeds anonymously with
its context unchanged. -/
theorem authenticate_resolve_witness :
    authenticate (fun _ _ => (none, none)) (fun _ => (none, none))
      ⟨none, some "tok", ctxAnon⟩ = ctxAnon :=
  (authenticate_resolve_spec (fun _ _ => (none, none)) (fun _ => (none, none))
    ⟨none, some "tok", ctxAnon⟩).1 rfl

/-- C3: for every non-empty password and salt (and any digest function with
the argon2.IDKey output-length and byte-range contracts), verifying the
password against the key produced by hashing it with that salt succeeds. -/
theorem verifyPassword_of_hashPassword (idKey : IdKeyFn)
    (hlen : ∀ pw s t m p kl, (idKey pw s t m p kl).length = kl)
    (hbytes : ∀ pw s t m p kl, ∀ b ∈ idKey pw s t m p kl, b < 256)
    (password salt : List Nat) (hpw : password ≠ []) (hsalt : salt ≠ [])
    (hsb : ∀ b ∈ salt, b < 256) :
    (HashPassword idKey password salt).bind (VerifyPassword idKey password) =
      Except.ok () := by
  rw [HashPassword_ok idKey password salt hpw hsalt]
  show VerifyPassword idKey password _ = Except.ok ()
  rw [VerifyPassword_sprintfKey idKey password salt _ hpw hsb
    (hbytes password salt ArgonTime ArgonMemory ArgonThreads ArgonKeyLen)
    ArgonTime ArgonMemory ArgonThreads (by decide) (by decide) (by decide)]
  rw [hlen password salt ArgonTime ArgonMemory ArgonThreads ArgonKeyLen]
  rw [if_pos rfl]

/-- C3 witness: a concrete digest model, password and salt round-trip. -/
theorem verifyPassword_of_hashPassword_witness :
    (HashPassword replicateIdKey (strBytes "hunter2") (strBytes "salt")).bind
      (VerifyPassword replicateIdKey (strBytes "hunter2")) = Except.ok () :=
  verifyPassword_of_hashPassword replicateIdKey
    (by intro pw s t m p kl; simp [replicateIdKey])
    (by intro pw s t m p kl b hb
        simp only [replicateIdKey, List.mem_replicate] at hb
        omega)
    (strBytes "hunter2") (strBytes "salt") (by decide) (by decide) (by decide)

/-- C4: HashPassword is a pure function of (password, salt), hence
deterministic, and with the digest pinned to the argon2id value of
("password", "salt") at the fixed parameters it returns exactly the key
string fixed by the repository test suite. -/
theorem hashPassword_deterministic_vector (idKey : IdKeyFn)
    (hdigest : idKey (strBytes "password") (strBytes "salt")
      ArgonTime ArgonMemory ArgonThreads ArgonKeyLen = pinnedDigest) :
    (∀ p1 s1 p2 s2, p1 = p2 → s1 = s2 →
      HashPassword idKey p1 s1 = HashPassword idKey p2 s2) ∧
    HashPassword idKey (strBytes "password") (strBytes "salt") =
      Except.ok (strBytes
        "$argon2id$v=19$m=65536,t=1,p=4$c2FsdA$OWwmnKFemKE2ILjM60j1so1oRXDFJYqvOiYlZTByvuU") := by
  refine ⟨fun p1 s1 p2 s2 h1 h2 => by rw [h1, h2], ?_⟩
  rw [HashPassword_ok idKey _ _ (by decide) (by decide), hdigest]
  decide

/-- C4 witness: the pinned digest function reproduces the test vector. -/
theorem hashPassword_deterministic_vector_witness :
    HashPassword pinnedIdKey (strBytes "password") (strBytes "salt") =
      Except.ok (strBytes
        "$argon2id$v=19$m=65536,t=1,p=4$c2FsdA$OWwmnKFemKE2ILjM60j1so1oRXDFJYqvOiYlZTByvuU") :=
  (hashPassword_deterministic_vector pinnedIdKey rfl).2

/-- C5: VerifyPassword recomputes the digest from the parameters and salt
embedded in the key, with the decoded hash length as output length: a key
serialized with arbitrary cost parameters (t, m, p) and output length kl -
not the hasher's current defaults - still verifies against its original
password, for every digest function with the argon2.IDKey contracts. -/
theorem verifyPassword_uses_embedded_parameters (idKey : IdKeyFn)
    (hlen : ∀ pw s t m p kl, (idKey pw s t m p kl).length = kl)
    (hbytes : ∀ pw s t m p kl, ∀ b ∈ idKey pw s t m p kl, b < 256)
    (password salt : List Nat) (hpw : password ≠ [])
    (hsb : ∀ b ∈ salt, b < 256)
    (t m p kl : Nat) (hm : m < 4294967296) (ht : t < 4294967296) (hp : p < 256) :
    VerifyPassword idKey password
      (sprintfKey argon2Version m t p (EncodeToBase64String salt)
        (EncodeToBase64String (idKey password salt t m p kl))) = Except.ok () := by
  rw [VerifyPassword_sprintfKey idKey password salt _ hpw hsb
    (hbytes password salt t m p kl) t m p hm ht hp]
  rw [hlen password salt t m p kl]
  rw [if_pos rfl]

/-- C5 witness: a key built with parameters (t=2, m=8, p=1, kl=4), all
different from the fixed defaults (1, 65536, 4, 32), verifies. -/
theorem verifyPassword_uses_embedded_parameters_witness :
    VerifyPassword replicateIdKey (strBytes "hunter2")
      (sprintfKey argon2Version 8 2 1 (EncodeToBase64String (strBytes "salt"))
        (EncodeToBase64String (replicateIdKey (strBytes "hunter2") (strBytes "salt") 2 8 1 4))) =
      Except.ok () :=
  verifyPassword_uses_embedded_parameters replicateIdKey
    (by intro pw s t m p kl; simp [replicateIdKey])
    (by intro pw s t m p kl b hb
        simp only [replicateIdKey, List.mem_replicate] at hb
        omega)
    (strBytes "hunter2") (strBytes "salt") (by decide) (by decide)
    2 8 1 4 (by decide) (by decide) (by decide)

/-- C6 counterexample: mismatchKey is a well-formed credential key (version
19, parameters within range, decodable salt and hash) whose embedded hash
[1, 2, 3] differs from the recomputed digest; VerifyPassword returns the
gofman InvalidArgument error "Hash not equal password." for it, not a plain
non-error failure as the claim states. -/
theorem verifyPassword_mismatch_not_clean :
    VerifyPassword zeroIdKey (strBytes "password") mismatchKey =
      Except.error (GoErr.app EINVALID "Hash not equal password.") := by
  decide

/-- C6 amended: VerifyPassword has no non-error failure result.  On a
well-formed key whose recomputed hash does not match it fails with the same
gofman InvalidArgument class used for malformed keys (message "Hash not
equal password."); a key with the wrong number of dollar segments fails with
InvalidArgument "Decoded key wrong length."; and an unparseable numeric
version segment propagates the raw Sscanf error, which is not a gofman
error at all.  The two outcomes are distinguished only by the error value,
not by an error/non-error distinction. -/
theorem verifyPassword_failure_classes (idKey : IdKeyFn)
    (hlen : ∀ pw s t m p kl, (idKey pw s t m p kl).length = kl)
    (hbytes : ∀ pw s t m p kl, ∀ b ∈ idKey pw s t m p kl, b < 256) :
    (∀ password salt wrong, password ≠ [] → salt ≠ [] → wrong ≠ [] →
      (∀ b ∈ salt, b < 256) →
      idKey wrong salt ArgonTime ArgonMemory ArgonThreads ArgonKeyLen ≠
        idKey password salt ArgonTime ArgonMemory ArgonThreads ArgonKeyLen →
      ∀ key, HashPassword idKey password salt = Except.ok key →
        VerifyPassword idKey wrong key =
          Except.error (GoErr.app EINVALID "Hash not equal password.")) ∧
    (∀ password, password ≠ [] →
      VerifyPassword idKey password (strBytes "$argon2id$v=19") =
        Except.error (GoErr.app EINVALID "Decoded key wrong length.")) ∧
    (∀ password, password ≠ [] →
      VerifyPassword idKey password
          (strBytes "$argon2id$v=x$m=65536,t=1,p=4$c2FsdA$c2FsdA") =
        Except.error (GoErr.lib "input does not match format")) := by
  refine ⟨?_, ?_, ?_⟩
  · intro password salt wrong hpw hsalt hwr hsb hdiff key hkey
    rw [HashPassword_ok idKey password salt hpw hsalt] at hkey
    injection hkey with hkey
    subst hkey
    rw [VerifyPassword_sprintfKey idKey wrong salt _ hwr hsb
      (hbytes password salt ArgonTime ArgonMemory ArgonThreads ArgonKeyLen)
      ArgonTime ArgonMemory ArgonThreads (by decide) (by decide) (by decide)]
    rw [hlen password salt ArgonTime ArgonMemory ArgonThreads ArgonKeyLen]
    rw [if_neg hdiff]
  · intro password hpw
    rw [VerifyPassword, if_neg hpw, if_neg (by decide)]
    rw [show splitDollar (strBytes "$argon2id$v=19") =
      [[], strBytes "argon2id", strBytes "v=19"] from by decide]
    rfl
  · intro password hpw
    rw [VerifyPassword, if_neg hpw, if_neg (by decide)]
    rw [show splitDollar (strBytes "$argon2id$v=x$m=65536,t=1,p=4$c2FsdA$c2FsdA") =
      [[], strBytes "argon2id", strBytes "v=x", strBytes "m=65536,t=1,p=4",
       strBytes "c2FsdA", strBytes "c2FsdA"] from by decide]
    rw [if_neg (by decide)]
    rw [show scanVersion ((
      [[], strBytes "argon2id", strBytes "v=x", strBytes "m=65536,t=1,p=4",
       strBytes "c2FsdA", strBytes "c2FsdA"] : List (List Nat)).getD 2 []) = none
      from by decide]

/-- C6 witness: a length-sensitive digest model, the password "aa" and the
wrong password "a"; verification of the wrong password against the key
hashed from "aa" yields the InvalidArgument error value. -/
theorem verifyPassword_failure_classes_witness :
    VerifyPassword lengthIdKey (strBytes "a")
      (sprintfKey argon2Version ArgonMemory ArgonTime ArgonThreads
        (EncodeToBase64String (strBytes "salt"))
        (EncodeToBase64String
          (lengthIdKey (strBytes "aa") (strBytes "salt")
            ArgonTime ArgonMemory ArgonThreads ArgonKeyLen))) =
      Except.error (GoErr.app EINVALID "Hash not equal password.") :=
  (verifyPassword_failure_classes lengthIdKey
    (by intro pw s t m p kl; simp [lengthIdKey])
    (by intro pw s t m p kl b hb
        simp only [lengthIdKey, List.mem_replicate] at hb
        omega)).1
    (strBytes "aa") (strBytes "salt") (strBytes "a")
    (by decide) (by decide) (by decide) (by decide) (by decide)
    _ (HashPassword_ok lengthIdKey (strBytes "aa") (strBytes "salt")
        (by decide) (by decide))
